import Mathlib

/-
Verification of the time-stepping driver in
src/99-other/2d_compressible_ALA/2d_compressible_ALA.py (g-adopt tutorials).

The script drives an external finite-element solver (gadopt / Firedrake)
through a time loop.  We model the driver faithfully:

* scalar fields over the spatial domain become functions `P → ℚ` over an
  abstract point type `P`; the mixed Stokes solution `z` is a value of an
  abstract type `V`; the mesh is a value of an abstract type `M`;
* the external collaborators (StokesSolver.solve, EnergySolver.solve, the
  CFL bound used by the TimestepAdaptor, and the numeric quadrature inside
  `sqrt(assemble((T - T_old)**2 * dx))`) are parameters of the model: a
  `Collaborators` record; a solve either succeeds or raises
  `SolverDivergence`, modelled by `Except Unit`;
* the side effects of the loop (VTK output, `plog.log_str`, `plog.close`,
  the final `CheckpointFile` writes, the console `log` call) are recorded
  as an event trace;
* the gadopt `TimestepAdaptor.update_timestep` implementation is not part
  of this repository, so it is modelled from the spec (see
  `update_timestep` below); everything else is translated line by line
  from the script's time loop (lines 217-267).
-/

namespace ALA2d

/-- Modelled from the spec: the implementation of
`TimestepAdaptor.update_timestep` lives in the external gadopt package and
is not under src/.  Per the spec (section 4.1): the output is
`dt = min(maximum_timestep, growth_factor * previous_dt, cfl_bound)`, and
when the CFL bound is undefined (zero velocity) the adaptor falls back to
the previous step's value, still subject to the configured caps. -/
def update_timestep (maximum_timestep increase_tolerance previous_dt : ℚ)
    (cfl_bound : Option ℚ) : ℚ :=
  match cfl_bound with
  | some c => min maximum_timestep (min (increase_tolerance * previous_dt) c)
  | none => min maximum_timestep (increase_tolerance * previous_dt)

/-- Configuration knobs of the driver (script lines 152-156, 193). -/
structure LoopConfig where
  timesteps : Nat
  output_frequency : Nat
  steady_state_tolerance : ℚ
  maximum_timestep : ℚ
  increase_tolerance : ℚ

/-- The concrete configuration of the script:
`timesteps = 20000`, `output_frequency = 50`,
`steady_state_tolerance = 1e-9`, `maximum_timestep = 0.1`,
`increase_tolerance = 1.5`. -/
def scriptConfig : LoopConfig :=
  ⟨20000, 50, 1 / 1000000000, 1 / 10, 3 / 2⟩

/-- The mutable state of the driver: the mesh (never mutated), the time
variable `time`, the adaptor's stored step `delta_t` (gadopt's adaptor
updates the `delta_t` Constant in place), the mixed Stokes solution `z`,
the temperature perturbation `T`, the energy solver's retained previous
temperature `T_old`, and the derived field `FullT`. -/
structure SimState (M P V : Type) where
  mesh : M
  time : ℚ
  delta_t : ℚ
  z : V
  T : P → ℚ
  T_old : P → ℚ
  fullT : P → ℚ

/-- The external collaborators of the driver.  `stokesSolve` updates the
mixed solution from the current temperature (script line 228);
`energySolve` updates the temperature from the just-updated velocity over
the step `dt` (line 231); `cflBound` is the CFL cell-traversal bound the
TimestepAdaptor reads from the velocity (line 224); `maxchange` is the
externally assembled quantity `sqrt(assemble((T - T_old)**2 * dx))`
(line 240).  A failing solve raises `SolverDivergence`: `Except.error`. -/
structure Collaborators (P V : Type) where
  stokesSolve : (P → ℚ) → V → Except Unit V
  energySolve : V → (P → ℚ) → ℚ → Except Unit (P → ℚ)
  cflBound : V → Option ℚ
  maxchange : (P → ℚ) → (P → ℚ) → ℚ

/-- Observable side effects of one run, in program order. -/
inductive Event (M P V : Type) where
  | vizOutput (step : Nat) (z : V) (T fullT : P → ℚ)
  | refOutput (step : Nat)
  | logHeader (columns : String)
  | logLine (step : Nat) (time dt maxchange : ℚ) (fullTUsed T_old : P → ℚ)
  | consoleMsg (s : String)
  | logClose
  | checkpoint (mesh : M) (temperature : P → ℚ) (stokes : V)

/-- Terminal states of the run loop. -/
inductive RunResult where
  | CONVERGED
  | MAX_STEPS_REACHED
  | DIVERGED
deriving DecidableEq

/-- Result of one iteration body up to the logging statement: either a
solver diverged (the events emitted so far are kept, the exception
propagates), or the iteration completed with the post-step state, the
emitted events and the `maxchange` value of the step. -/
inductive StepRes (M P V : Type) where
  | diverged (st : SimState M P V) (evs : List (Event M P V))
  | stepped (st : SimState M P V) (evs : List (Event M P V)) (mc : ℚ)

/-- Outcome of a whole run: terminal state, final driver state, the full
event trace, and the state at the end of every completed iteration
(immediately after the `FullT.assign(T+Tbar)` of script line 250). -/
structure RunOutcome (M P V : Type) where
  result : RunResult
  finalState : SimState M P V
  events : List (Event M P V)
  trace : List (SimState M P V)

variable {M P V : Type}

/-- Script lines 220-222: every `output_frequency` steps, write the mixed
solution, `T` and `FullT` to the VTK sink and the reference fields to the
reference sink. -/
def vizEvents (C : LoopConfig) (step : Nat) (st : SimState M P V) :
    List (Event M P V) :=
  if step % C.output_frequency == 0 then
    [Event.vizOutput step st.z st.T st.fullT, Event.refOutput step]
  else []

/-- The state at the end of one completed iteration: time advanced by `dt`
(line 225), `delta_t` holding the adaptor's new value, `z` and `T` updated
by the solvers (lines 228, 231), `T_old` the pre-solve temperature
retained by the energy solver, and `FullT` reassigned to `T + Tbar`
(line 250). -/
def nextState (Tb : P → ℚ) (st : SimState M P V) (dt : ℚ) (z2 : V)
    (T2 : P → ℚ) : SimState M P V :=
  ⟨st.mesh, st.time + dt, dt, z2, T2, st.T, fun x => T2 x + Tb x⟩

/-- The value `dt = t_adapt.update_timestep()` of script line 224. -/
def stepDt (C : LoopConfig) (S : Collaborators P V) (st : SimState M P V) :
    ℚ :=
  update_timestep C.maximum_timestep C.increase_tolerance
    st.delta_t (S.cflBound st.z)

/-- One iteration of the time loop, script lines 220-250: optional output,
adaptor call and time update, Stokes solve, energy solve, diagnostics and
log line (the diagnostics read the still-unassigned `FullT`, recorded in
the `logLine` event as `fullTUsed`), then the `FullT` reassignment. -/
def oneStep (C : LoopConfig) (S : Collaborators P V) (Tb : P → ℚ)
    (step : Nat) (st : SimState M P V) : StepRes M P V :=
  let dt := stepDt C S st
  match S.stokesSolve st.T st.z with
  | Except.error _ =>
      StepRes.diverged { st with delta_t := dt, time := st.time + dt }
        (vizEvents C step st)
  | Except.ok z2 =>
      match S.energySolve z2 st.T dt with
      | Except.error _ =>
          StepRes.diverged
            { st with delta_t := dt, time := st.time + dt, z := z2 }
            (vizEvents C step st)
      | Except.ok T2 =>
          StepRes.stepped (nextState Tb st dt z2 T2)
            (vizEvents C step st ++
              [Event.logLine step (st.time + dt) dt (S.maxchange T2 st.T)
                st.fullT st.T])
            (S.maxchange T2 st.T)

/-- The time loop from iteration `step` with `r` iterations left in
`range(0, timesteps)` (script lines 217-255), followed by `plog.close()`
and the checkpoint writes (lines 262-267).  On a diverged solve the
exception propagates: no log close, no checkpoint. -/
def runFrom (C : LoopConfig) (S : Collaborators P V) (Tb : P → ℚ) :
    Nat → Nat → SimState M P V → RunOutcome M P V
  | 0, _, st =>
      ⟨RunResult.MAX_STEPS_REACHED, st,
        [Event.logClose, Event.checkpoint st.mesh st.T st.z], []⟩
  | r + 1, step, st =>
      match oneStep C S Tb step st with
      | StepRes.diverged st2 evs => ⟨RunResult.DIVERGED, st2, evs, []⟩
      | StepRes.stepped st2 evs mc =>
          if mc < C.steady_state_tolerance then
            ⟨RunResult.CONVERGED, st2,
              evs ++
                [Event.consoleMsg
                    "Steady-state achieved -- exiting time-step loop",
                  Event.logClose,
                  Event.checkpoint st2.mesh st2.T st2.z],
              [st2]⟩
          else
            let o := runFrom C S Tb r (step + 1) st2
            ⟨o.result, o.finalState, evs ++ o.events, st2 :: o.trace⟩

/-- A whole run: the header line written to the parameter log before the
loop (script lines 196-198), then the loop from step 0. -/
def runLoop (C : LoopConfig) (S : Collaborators P V) (Tb : P → ℚ)
    (st : SimState M P V) : RunOutcome M P V :=
  let o := runFrom C S Tb C.timesteps 0 st
  ⟨o.result, o.finalState,
    Event.logHeader
        ("timestep time dt maxchange u_rms u_rms_surf ux_max nu_base " ++
          "nu_top energy avg_t rate_work_g rate_viscous energy_2")
      :: o.events,
    o.trace⟩

/-- Recognizes a per-step data line in the parameter log. -/
def isLogLine : Event M P V → Bool
  | Event.logLine _ _ _ _ _ _ => true
  | _ => false

/-- Recognizes the header line of the parameter log. -/
def isLogHeader : Event M P V → Bool
  | Event.logHeader _ => true
  | _ => false

/-- Recognizes the `plog.close()` effect. -/
def isLogClose : Event M P V → Bool
  | Event.logClose => true
  | _ => false

/-- Recognizes the final checkpoint write. -/
def isCheckpoint : Event M P V → Bool
  | Event.checkpoint _ _ _ => true
  | _ => false

/-- The `time` values of the data lines, in log order. -/
def loggedTimes (evs : List (Event M P V)) : List ℚ :=
  evs.filterMap fun e =>
    match e with
    | Event.logLine _ t _ _ _ _ => some t
    | _ => none

/-- Every data line carries a strictly positive `dt`. -/
def dtPosE : Event M P V → Prop
  | Event.logLine _ _ d _ _ _ => 0 < d
  | _ => True

/-- A data line's diagnostics read a `FullT` equal to the retained
previous temperature plus the reference temperature. -/
def logLineStale (Tb : P → ℚ) : Event M P V → Prop
  | Event.logLine _ _ _ _ fTu Told => ∀ x, fTu x = Told x + Tb x
  | _ => True

/-! Concrete instantiations used to evaluate the model on small runs: a
one-point domain `Fin 1`, a rational mixed solution, a unit mesh. -/

/-- A concrete reference temperature field on the one-point domain. -/
def TbW : Fin 1 → ℚ := fun _ => 2

/-- A concrete initial state on the one-point domain, with `time = 0`,
`delta_t = 1e-6` (the script's seed), and `FullT = T + Tbar` as
established by script line 163. -/
def stW : SimState Unit (Fin 1) ℚ :=
  ⟨(), 0, 1 / 1000000, 0, fun _ => 5, fun _ => 5, fun _ => 7⟩

/-- Collaborators whose solves always succeed and always change the
fields, so the convergence metric is 1 at every step. -/
def okCollab : Collaborators (Fin 1) ℚ :=
  ⟨fun _ z => Except.ok (z + 1),
    fun _ T _ => Except.ok (fun x => T x + 1),
    fun _ => some 1,
    fun a b => |a 0 - b 0|⟩

/-- Collaborators whose solves always succeed and leave every field
unchanged. -/
def idCollab : Collaborators (Fin 1) ℚ :=
  ⟨fun _ z => Except.ok z,
    fun _ T _ => Except.ok T,
    fun _ => some 1,
    fun a b => |a 0 - b 0|⟩

/-- Collaborators whose Stokes solve raises `SolverDivergence` at once. -/
def divCollab : Collaborators (Fin 1) ℚ :=
  ⟨fun _ _ => Except.error (),
    fun _ T _ => Except.ok T,
    fun _ => some 1,
    fun a b => |a 0 - b 0|⟩

/-- A small configuration for concrete runs: 3 steps at most. -/
def cfgSmall : LoopConfig := ⟨3, 2, 1 / 1000000000, 1 / 10, 3 / 2⟩

/-- The configuration of the spec's convergence scenario:
`max_steps = 5`, `output_frequency = 2`, tolerance `1e-9`. -/
def cfgC7 : LoopConfig := ⟨5, 2, 1 / 1000000000, 1 / 10, 3 / 2⟩

/-- The configuration of the spec's max-steps scenario: tolerance `0`,
`max_steps = 10`. -/
def cfgC8 : LoopConfig := ⟨10, 50, 0, 1 / 10, 3 / 2⟩

/-! Helper lemmas about the adaptor, one iteration, and the loop. -/

lemma update_timestep_le (m g p : ℚ) (cb : Option ℚ) :
    update_timestep m g p cb ≤ min m (g * p) := by
  cases cb with
  | none => exact le_rfl
  | some c =>
      exact min_le_min le_rfl (min_le_left _ _)

lemma update_timestep_pos (m g p : ℚ) (cb : Option ℚ) (hm : 0 < m)
    (hg : 0 < g) (hp : 0 < p) (hcb : ∀ c, cb = some c → 0 < c) :
    0 < update_timestep m g p cb := by
  cases cb with
  | none => exact lt_min hm (mul_pos hg hp)
  | some c => exact lt_min hm (lt_min (mul_pos hg hp) (hcb c rfl))

lemma stepDt_pos (C : LoopConfig) (S : Collaborators P V)
    (st : SimState M P V) (hm : 0 < C.maximum_timestep)
    (hg : 0 < C.increase_tolerance)
    (hcb : ∀ v c, S.cflBound v = some c → 0 < c) (hp : 0 < st.delta_t) :
    0 < stepDt C S st :=
  update_timestep_pos _ _ _ _ hm hg hp (fun c hc => hcb st.z c hc)

/-- Case analysis on one iteration: either a solve diverged, having
emitted only the optional output events, or the iteration completed with
the post-step state `nextState`, the output events followed by exactly
one log line, and the step's `maxchange` value. -/
lemma oneStep_cases (C : LoopConfig) (S : Collaborators P V) (Tb : P → ℚ)
    (step : Nat) (st : SimState M P V) :
    (∃ st2, oneStep C S Tb step st
        = StepRes.diverged st2 (vizEvents C step st))
    ∨ ∃ z2 T2,
        S.stokesSolve st.T st.z = Except.ok z2 ∧
        S.energySolve z2 st.T (stepDt C S st) = Except.ok T2 ∧
        oneStep C S Tb step st
          = StepRes.stepped (nextState Tb st (stepDt C S st) z2 T2)
              (vizEvents C step st ++
                [Event.logLine step (st.time + stepDt C S st)
                  (stepDt C S st) (S.maxchange T2 st.T) st.fullT st.T])
              (S.maxchange T2 st.T) := by
  cases h1 : S.stokesSolve st.T st.z with
  | error e =>
      have h3 : oneStep C S Tb step st
          = StepRes.diverged
              { st with
                  delta_t := stepDt C S st,
                  time := st.time + stepDt C S st }
              (vizEvents C step st) := by
        simp only [oneStep, h1]
      exact Or.inl ⟨_, h3⟩
  | ok z2 =>
      cases h2 : S.energySolve z2 st.T (stepDt C S st) with
      | error e =>
          have h3 : oneStep C S Tb step st
              = StepRes.diverged
                  { st with
                      delta_t := stepDt C S st,
                      time := st.time + stepDt C S st,
                      z := z2 }
                  (vizEvents C step st) := by
            simp only [oneStep, h1, h2]
          exact Or.inl ⟨_, h3⟩
      | ok T2 =>
          refine Or.inr ⟨z2, T2, rfl, h2, ?_⟩
          simp only [oneStep, h1, h2]

lemma countP_vizEvents (C : LoopConfig) (step : Nat) (st : SimState M P V)
    (p : Event M P V → Bool)
    (h1 : ∀ s z T fT, p (Event.vizOutput s z T fT) = false)
    (h2 : ∀ s, p (Event.refOutput s) = false) :
    (vizEvents C step st).countP p = 0 := by
  unfold vizEvents
  split
  · simp [List.countP_cons, h1, h2]
  · simp

lemma forall_vizEvents (C : LoopConfig) (step : Nat) (st : SimState M P V)
    (Q : Event M P V → Prop)
    (h1 : ∀ s z T fT, Q (Event.vizOutput s z T fT))
    (h2 : ∀ s, Q (Event.refOutput s)) :
    ∀ e ∈ vizEvents C step st, Q e := by
  unfold vizEvents
  split
  · intro e he
    rcases List.mem_cons.mp he with h | h
    · exact h ▸ h1 _ _ _ _
    · rcases List.mem_singleton.mp h with h
      exact h ▸ h2 _
  · intro e he
    exact absurd he (List.not_mem_nil e)

lemma loggedTimes_vizEvents (C : LoopConfig) (step : Nat)
    (st : SimState M P V) : loggedTimes (vizEvents C step st) = [] := by
  unfold vizEvents
  split <;> rfl

lemma loggedTimes_append (a b : List (Event M P V)) :
    loggedTimes (a ++ b) = loggedTimes a ++ loggedTimes b :=
  List.filterMap_append a b _

/-- The loop writes exactly one data line per completed iteration and no
header line (the header is written before the loop). -/
lemma runFrom_counts (C : LoopConfig) (S : Collaborators P V)
    (Tb : P → ℚ) :
    ∀ (r step : Nat) (st : SimState M P V),
      (runFrom C S Tb r step st).events.countP isLogLine
          = (runFrom C S Tb r step st).trace.length
        ∧ (runFrom C S Tb r step st).events.countP isLogHeader = 0 := by
  intro r
  induction r with
  | zero =>
      intro step st
      simp [runFrom, List.countP_cons, isLogLine, isLogHeader]
  | succ r ih =>
      intro step st
      have hviz1 : (vizEvents C step st).countP isLogLine = 0 := by
        apply countP_vizEvents <;> intros <;> simp [isLogLine]
      have hviz2 : (vizEvents C step st).countP isLogHeader = 0 := by
        apply countP_vizEvents <;> intros <;> simp [isLogHeader]
      rcases oneStep_cases C S Tb step st with ⟨st2, h⟩ | ⟨z2, T2, h1, h2, h⟩
      · simp [runFrom, h, hviz1, hviz2]
      · by_cases hmc : S.maxchange T2 st.T < C.steady_state_tolerance
        · simp [runFrom, h, if_pos hmc, List.countP_append,
            List.countP_cons, hviz1, hviz2, isLogLine, isLogHeader]
        · have := ih (step + 1) (nextState Tb st (stepDt C S st) z2 T2)
          simp [runFrom, h, if_neg hmc, List.countP_append,
            List.countP_cons, hviz1, hviz2, isLogLine, isLogHeader,
            this.1, this.2]

/-- Terminal-effect bookkeeping of the loop: after a diverged solve the
uncaught exception skips `plog.close()` and the checkpoint writes; on the
two normal exits the log is closed exactly once, and the checkpoint of
the final state's mesh, temperature and mixed solution is the very last
effect. -/
lemma runFrom_close (C : LoopConfig) (S : Collaborators P V)
    (Tb : P → ℚ) :
    ∀ (r step : Nat) (st : SimState M P V),
      ((runFrom C S Tb r step st).result = RunResult.DIVERGED →
          (runFrom C S Tb r step st).events.countP isLogClose = 0
            ∧ (runFrom C S Tb r step st).events.countP isCheckpoint = 0)
        ∧ ((runFrom C S Tb r step st).result ≠ RunResult.DIVERGED →
          (runFrom C S Tb r step st).events.countP isLogClose = 1
            ∧ (runFrom C S Tb r step st).events.getLast?
                = some (Event.checkpoint
                    (runFrom C S Tb r step st).finalState.mesh
                    (runFrom C S Tb r step st).finalState.T
                    (runFrom C S Tb r step st).finalState.z)) := by
  intro r
  induction r with
  | zero =>
      intro step st
      simp [runFrom, List.countP_cons, isLogClose, isCheckpoint]
  | succ r ih =>
      intro step st
      have hviz1 : (vizEvents C step st).countP isLogClose = 0 := by
        apply countP_vizEvents <;> intros <;> simp [isLogClose]
      have hviz2 : (vizEvents C step st).countP isCheckpoint = 0 := by
        apply countP_vizEvents <;> intros <;> simp [isCheckpoint]
      rcases oneStep_cases C S Tb step st with ⟨st2, h⟩ | ⟨z2, T2, h1, h2, h⟩
      · simp [runFrom, h, hviz1, hviz2]
      · by_cases hmc : S.maxchange T2 st.T < C.steady_state_tolerance
        · constructor
          · intro hres
            simp [runFrom, h, if_pos hmc] at hres
          · intro _
            constructor
            · simp [runFrom, h, if_pos hmc, List.countP_append,
                List.countP_cons, hviz1, hviz2, isLogClose]
            · rw [runFrom]
              simp only [h, if_pos hmc]
              rw [List.getLast?_append_cons]
              rfl
        · have hih := ih (step + 1) (nextState Tb st (stepDt C S st) z2 T2)
          constructor
          · intro hres
            rw [runFrom] at hres ⊢
            simp only [h, if_neg hmc] at hres ⊢
            have := hih.1 hres
            simp [List.countP_append, List.countP_cons, hviz1, hviz2,
              isLogClose, isCheckpoint, this.1, this.2]
          · intro hres
            rw [runFrom] at hres ⊢
            simp only [h, if_neg hmc] at hres ⊢
            have hne := hih.2 hres
            have hnil : (runFrom C S Tb r (step + 1)
                (nextState Tb st (stepDt C S st) z2 T2)).events ≠ [] := by
              intro hcon
              rw [hcon] at hne
              simp at hne
            constructor
            · simp [List.countP_append, List.countP_cons, hviz1, hviz2,
                isLogClose, hne.1]
            · rw [List.getLast?_append_of_ne_nil _ hnil]
              exact hne.2

/-- Step-count bookkeeping: the loop completes at most `r` iterations;
the `range` is exhausted exactly when all `r` complete without a break,
and a convergence exit records a final state whose temperature change
was strictly below the tolerance. -/
lemma runFrom_bounds (C : LoopConfig) (S : Collaborators P V)
    (Tb : P → ℚ) :
    ∀ (r step : Nat) (st : SimState M P V),
      (runFrom C S Tb r step st).trace.length ≤ r
        ∧ ((runFrom C S Tb r step st).result = RunResult.MAX_STEPS_REACHED →
            (runFrom C S Tb r step st).trace.length = r)
        ∧ ((runFrom C S Tb r step st).result = RunResult.CONVERGED →
            1 ≤ (runFrom C S Tb r step st).trace.length
              ∧ S.maxchange (runFrom C S Tb r step st).finalState.T
                  (runFrom C S Tb r step st).finalState.T_old
                < C.steady_state_tolerance) := by
  intro r
  induction r with
  | zero =>
      intro step st
      simp [runFrom]
  | succ r ih =>
      intro step st
      rcases oneStep_cases C S Tb step st with ⟨st2, h⟩ | ⟨z2, T2, h1, h2, h⟩
      · simp [runFrom, h]
      · by_cases hmc : S.maxchange T2 st.T < C.steady_state_tolerance
        · refine ⟨?_, ?_, ?_⟩ <;> rw [runFrom] <;> simp only [h, if_pos hmc]
          · simp
          · intro hres
            simp at hres
          · intro _
            exact ⟨by simp, hmc⟩
        · have hih := ih (step + 1) (nextState Tb st (stepDt C S st) z2 T2)
          refine ⟨?_, ?_, ?_⟩ <;> rw [runFrom] <;> simp only [h, if_neg hmc]
          · simpa using Nat.succ_le_succ hih.1
          · intro hres
            simpa using hih.2.1 hres
          · intro hres
            have := hih.2.2 hres
            exact ⟨le_trans this.1 (by simp), this.2⟩

/-- Every state recorded at the end of a completed iteration satisfies
the full-temperature invariant: the `FullT.assign(T+Tbar)` of script
line 250 is the last field mutation of the iteration. -/
lemma runFrom_trace_fullT (C : LoopConfig) (S : Collaborators P V)
    (Tb : P → ℚ) :
    ∀ (r step : Nat) (st : SimState M P V),
      ∀ s ∈ (runFrom C S Tb r step st).trace,
        ∀ x, s.fullT x = s.T x + Tb x := by
  intro r
  induction r with
  | zero =>
      intro step st s hs
      simp [runFrom] at hs
  | succ r ih =>
      intro step st s hs
      rcases oneStep_cases C S Tb step st with ⟨st2, h⟩ | ⟨z2, T2, h1, h2, h⟩
      · rw [runFrom] at hs
        simp only [h] at hs
        simp at hs
      · by_cases hmc : S.maxchange T2 st.T < C.steady_state_tolerance
        · rw [runFrom] at hs
          simp only [h, if_pos hmc] at hs
          simp at hs
          subst hs
          intro x
          rfl
        · rw [runFrom] at hs
          simp only [h, if_neg hmc] at hs
          simp only [List.mem_cons] at hs
          rcases hs with hs | hs
          · subst hs
            intro x
            rfl
          · exact ih (step + 1) (nextState Tb st (stepDt C S st) z2 T2) s hs

/-- The diagnostics of every data line read the pre-step `FullT`: if the
invariant `FullT = T + Tbar` holds on entry, every logged `fullTUsed` is
the retained previous temperature plus the reference temperature. -/
lemma runFrom_stale (C : LoopConfig) (S : Collaborators P V)
    (Tb : P → ℚ) :
    ∀ (r step : Nat) (st : SimState M P V),
      (∀ x, st.fullT x = st.T x + Tb x) →
        ∀ e ∈ (runFrom C S Tb r step st).events, logLineStale Tb e := by
  intro r
  induction r with
  | zero =>
      intro step st _ e he
      rw [runFrom] at he
      rcases List.mem_cons.mp he with h | h
      · exact h ▸ trivial
      · rcases List.mem_singleton.mp h with h
        exact h ▸ trivial
  | succ r ih =>
      intro step st h0 e he
      have hviz : ∀ e ∈ vizEvents C step st, logLineStale Tb e := by
        apply forall_vizEvents <;> intros <;> trivial
      rcases oneStep_cases C S Tb step st with ⟨st2, h⟩ | ⟨z2, T2, h1, h2, h⟩
      · rw [runFrom] at he
        simp only [h] at he
        exact hviz e he
      · have hline : logLineStale Tb
            (Event.logLine (M := M) (V := V) step (st.time + stepDt C S st)
              (stepDt C S st) (S.maxchange T2 st.T) st.fullT st.T) := h0
        by_cases hmc : S.maxchange T2 st.T < C.steady_state_tolerance
        · rw [runFrom] at he
          simp only [h, if_pos hmc] at he
          simp only [List.append_assoc, List.mem_append, List.mem_cons,
            List.mem_singleton, List.not_mem_nil, or_false] at he
          rcases he with he | he | he | he | he
          · exact hviz e he
          · exact he ▸ hline
          · exact he ▸ trivial
          · exact he ▸ trivial
          · exact he ▸ trivial
        · rw [runFrom] at he
          simp only [h, if_neg hmc] at he
          simp only [List.append_assoc, List.mem_append, List.mem_cons,
            List.mem_singleton, List.not_mem_nil, or_false] at he
          rcases he with he | he | he
          · exact hviz e he
          · exact he ▸ hline
          · exact ih (step + 1) (nextState Tb st (stepDt C S st) z2 T2)
              (fun x => rfl) e he

/-- With positive caps and positive CFL bounds, every adaptor value is
positive, so the logged times strictly increase and every logged `dt` is
positive. -/
lemma runFrom_times (C : LoopConfig) (S : Collaborators P V) (Tb : P → ℚ)
    (hm : 0 < C.maximum_timestep) (hg : 0 < C.increase_tolerance)
    (hcb : ∀ v c, S.cflBound v = some c → 0 < c) :
    ∀ (r step : Nat) (st : SimState M P V), 0 < st.delta_t →
      List.Chain' (fun a b => a < b)
          (st.time :: loggedTimes (runFrom C S Tb r step st).events)
        ∧ ∀ e ∈ (runFrom C S Tb r step st).events, dtPosE e := by
  intro r
  induction r with
  | zero =>
      intro step st _
      constructor
      · simp [runFrom, loggedTimes]
      · intro e he
        rw [runFrom] at he
        rcases List.mem_cons.mp he with h | h
        · exact h ▸ trivial
        · rcases List.mem_singleton.mp h with h
          exact h ▸ trivial
  | succ r ih =>
      intro step st hdt
      have hpos : 0 < stepDt C S st := stepDt_pos C S st hm hg hcb hdt
      have htime : st.time < st.time + stepDt C S st := by linarith
      have hviz : ∀ e ∈ vizEvents C step st, dtPosE e := by
        apply forall_vizEvents <;> intros <;> trivial
      have hvizt : loggedTimes (vizEvents C step st) = [] :=
        loggedTimes_vizEvents C step st
      rcases oneStep_cases C S Tb step st with ⟨st2, h⟩ | ⟨z2, T2, h1, h2, h⟩
      · constructor
        · rw [runFrom]
          simp only [h]
          simp [hvizt]
        · rw [runFrom]
          simp only [h]
          exact hviz
      · by_cases hmc : S.maxchange T2 st.T < C.steady_state_tolerance
        · constructor
          · rw [runFrom]
            simp only [h, if_pos hmc]
            rw [loggedTimes_append, loggedTimes_append, hvizt]
            simp [loggedTimes, List.chain'_cons, htime]
          · rw [runFrom]
            simp only [h, if_pos hmc]
            intro e he
            simp only [List.append_assoc, List.mem_append, List.mem_cons,
              List.mem_singleton, List.not_mem_nil, or_false] at he
            rcases he with he | he | he | he | he
            · exact hviz e he
            · exact he ▸ hpos
            · exact he ▸ trivial
            · exact he ▸ trivial
            · exact he ▸ trivial
        · have hih := ih (step + 1) (nextState Tb st (stepDt C S st) z2 T2)
            hpos
          constructor
          · rw [runFrom]
            simp only [h, if_neg hmc]
            simp only [loggedTimes_append, hvizt, List.nil_append]
            have hchain := hih.1
            have : loggedTimes
                  [Event.logLine (M := M) (V := V) step
                    (st.time + stepDt C S st) (stepDt C S st)
                    (S.maxchange T2 st.T) st.fullT st.T]
                = [st.time + stepDt C S st] := rfl
            rw [this]
            exact List.Chain'.cons htime hchain
          · rw [runFrom]
            simp only [h, if_neg hmc]
            intro e he
            simp only [List.append_assoc, List.mem_append, List.mem_cons,
              List.mem_singleton, List.not_mem_nil, or_false] at he
            rcases he with he | he | he
            · exact hviz e he
            · exact he ▸ hpos
            · exact hih.2 e he

/-- If both solves always succeed and the convergence test can never
fire, the loop always exhausts its `range`. -/
lemma runFrom_noconv (C : LoopConfig) (S : Collaborators P V)
    (Tb : P → ℚ)
    (hst : ∀ T z, ∃ z2, S.stokesSolve T z = Except.ok z2)
    (hen : ∀ z T dt, ∃ T2, S.energySolve z T dt = Except.ok T2)
    (hnc : ∀ a b, ¬ S.maxchange a b < C.steady_state_tolerance) :
    ∀ (r step : Nat) (st : SimState M P V),
      (runFrom C S Tb r step st).result = RunResult.MAX_STEPS_REACHED
        ∧ (runFrom C S Tb r step st).trace.length = r := by
  intro r
  induction r with
  | zero =>
      intro step st
      simp [runFrom]
  | succ r ih =>
      intro step st
      rcases oneStep_cases C S Tb step st with ⟨st2, h⟩ | ⟨z2, T2, h1, h2, h⟩
      · rcases hst st.T st.z with ⟨z3, h3⟩
        rcases hen z3 st.T (stepDt C S st) with ⟨T3, h4⟩
        rw [oneStep, h3] at h
        simp only [h4] at h
        cases h
      · have hih := ih (step + 1) (nextState Tb st (stepDt C S st) z2 T2)
        rw [runFrom]
        simp only [h, if_neg (hnc T2 st.T)]
        simpa using hih

/-- If both solves always succeed leaving the fields unchanged, the
temperature-change metric of the first iteration is `maxchange T T = 0`;
with a positive tolerance the loop converges after exactly one step. -/
lemma runFrom_conv1 (C : LoopConfig) (S : Collaborators P V)
    (Tb : P → ℚ)
    (hst : ∀ T z, S.stokesSolve T z = Except.ok z)
    (hen : ∀ z T dt, S.energySolve z T dt = Except.ok T)
    (hmc : ∀ f, S.maxchange f f = 0)
    (htol : 0 < C.steady_state_tolerance) :
    ∀ (r step : Nat) (st : SimState M P V),
      (runFrom C S Tb (r + 1) step st).result = RunResult.CONVERGED
        ∧ (runFrom C S Tb (r + 1) step st).trace.length = 1 := by
  intro r step st
  have hfire : S.maxchange st.T st.T < C.steady_state_tolerance := by
    rw [hmc st.T]
    exact htol
  rw [runFrom, oneStep, hst st.T st.z]
  simp only [hen st.z st.T (stepDt C S st), if_pos hfire]
  simp

/-! The claims. -/

/-- C1: For every executed time step, immediately after the step-advance
operation (the Stokes solve and energy solve followed by the
recomputation of the full temperature, script lines 228-250), the
full-temperature field equals the temperature-perturbation field plus
the reference-temperature field pointwise. -/
theorem C1_fullT_invariant (C : LoopConfig) (S : Collaborators P V)
    (Tb : P → ℚ) (st : SimState M P V) :
    ∀ s ∈ (runLoop C S Tb st).trace, ∀ x, s.fullT x = s.T x + Tb x := by
  intro s hs
  exact runFrom_trace_fullT C S Tb C.timesteps 0 st s hs

/-- C1 witness: the invariant evaluated on the first completed step of a
concrete three-step run. -/
theorem C1_fullT_invariant_witness :
    ((runLoop cfgSmall okCollab TbW stW).trace.get ⟨0, by
        norm_num [runLoop, runFrom, oneStep, update_timestep, stepDt,
          vizEvents, nextState, cfgSmall, okCollab, TbW, stW,
          min_def]⟩).fullT 0
      = ((runLoop cfgSmall okCollab TbW stW).trace.get ⟨0, by
        norm_num [runLoop, runFrom, oneStep, update_timestep, stepDt,
          vizEvents, nextState, cfgSmall, okCollab, TbW, stW,
          min_def]⟩).T 0 + TbW 0 :=
  C1_fullT_invariant cfgSmall okCollab TbW stW _
    (List.get_mem _ 0 _) 0

/-- C4: The run loop terminates after at most `timesteps` completed
iterations, and exits only through the three terminal states: CONVERGED
(the convergence metric of the final iteration was strictly below the
steady-state tolerance), MAX_STEPS_REACHED (exactly `timesteps`
iterations completed), or DIVERGED. -/
theorem C4_termination (C : LoopConfig) (S : Collaborators P V)
    (Tb : P → ℚ) (st : SimState M P V) :
    (runLoop C S Tb st).trace.length ≤ C.timesteps
      ∧ ((runLoop C S Tb st).result = RunResult.MAX_STEPS_REACHED →
          (runLoop C S Tb st).trace.length = C.timesteps)
      ∧ ((runLoop C S Tb st).result = RunResult.CONVERGED →
          1 ≤ (runLoop C S Tb st).trace.length
            ∧ S.maxchange (runLoop C S Tb st).finalState.T
                (runLoop C S Tb st).finalState.T_old
              < C.steady_state_tolerance)
      ∧ ((runLoop C S Tb st).result = RunResult.CONVERGED
          ∨ (runLoop C S Tb st).result = RunResult.MAX_STEPS_REACHED
          ∨ (runLoop C S Tb st).result = RunResult.DIVERGED) := by
  have h := runFrom_bounds C S Tb C.timesteps 0 st
  refine ⟨h.1, h.2.1, h.2.2, ?_⟩
  cases (runLoop C S Tb st).result with
  | CONVERGED => exact Or.inl rfl
  | MAX_STEPS_REACHED => exact Or.inr (Or.inl rfl)
  | DIVERGED => exact Or.inr (Or.inr rfl)

/-- C4 witness: the step bound evaluated on a concrete run that exhausts
its three-iteration range. -/
theorem C4_termination_witness :
    (runLoop cfgSmall okCollab TbW stW).trace.length
      ≤ cfgSmall.timesteps :=
  (C4_termination cfgSmall okCollab TbW stW).1

/-- C5: With the script's configuration (`maximum_timestep = 0.1`,
`increase_tolerance = 1.5`), for positive inputs the adaptor returns a
strictly positive `dt` equal to
`min(maximum_timestep, growth_factor * previous_dt, cfl_bound)`, and for
every call the result never exceeds
`min(maximum_timestep, growth_factor * previous_dt)`. -/
theorem C5_update_timestep (prev c : ℚ) (cb : Option ℚ) (hp : 0 < prev)
    (hc : 0 < c) :
    0 < update_timestep scriptConfig.maximum_timestep
        scriptConfig.increase_tolerance prev (some c)
      ∧ update_timestep scriptConfig.maximum_timestep
          scriptConfig.increase_tolerance prev (some c)
        = min scriptConfig.maximum_timestep
            (min (scriptConfig.increase_tolerance * prev) c)
      ∧ update_timestep scriptConfig.maximum_timestep
          scriptConfig.increase_tolerance prev cb
        ≤ min scriptConfig.maximum_timestep
            (scriptConfig.increase_tolerance * prev) := by
  refine ⟨?_, rfl, update_timestep_le _ _ _ _⟩
  apply update_timestep_pos
  · norm_num [scriptConfig]
  · norm_num [scriptConfig]
  · exact hp
  · intro x hx
    rcases Option.some_injective ℚ hx with h
    exact h ▸ hc

/-- C5 witness: the adaptor evaluated at the script's initial step
`1e-6` with CFL bound 1. -/
theorem C5_update_timestep_witness :
    (0 : ℚ) < 1 / 1000000 ∧ (0 : ℚ) < 1
      ∧ 0 < update_timestep scriptConfig.maximum_timestep
          scriptConfig.increase_tolerance (1 / 1000000) (some 1) :=
  ⟨by norm_num, by norm_num,
    (C5_update_timestep (1 / 1000000) 1 none (by norm_num) (by norm_num)).1⟩

/-- C6: If the configured caps are positive, every CFL bound supplied by
the collaborator is positive and the seed `delta_t` is positive, then
the time variable strictly increases across consecutive executed steps
(each iteration adds the adaptor's `dt`, and `dt > 0` always: every
logged `dt` is positive). -/
theorem C6_time_monotone (C : LoopConfig) (S : Collaborators P V)
    (Tb : P → ℚ) (st : SimState M P V) (hm : 0 < C.maximum_timestep)
    (hg : 0 < C.increase_tolerance)
    (hcb : ∀ v c, S.cflBound v = some c → 0 < c)
    (hdt : 0 < st.delta_t) :
    List.Chain' (fun a b => a < b)
        (st.time :: loggedTimes (runLoop C S Tb st).events)
      ∧ ∀ e ∈ (runLoop C S Tb st).events, dtPosE e := by
  have h := runFrom_times C S Tb hm hg hcb C.timesteps 0 st hdt
  constructor
  · exact h.1
  · intro e he
    rcases List.mem_cons.mp he with h2 | h2
    · exact h2 ▸ trivial
    · exact h.2 e h2

/-- C6 witness: strict monotonicity of the logged times of a concrete
three-step run. -/
theorem C6_time_monotone_witness :
    List.Chain' (fun a b => a < b)
      (stW.time :: loggedTimes (runLoop cfgSmall okCollab TbW stW).events) :=
  (C6_time_monotone cfgSmall okCollab TbW stW (by norm_num [cfgSmall])
    (by norm_num [cfgSmall])
    (fun v c h => by
      simp only [okCollab, Option.some.injEq] at h
      rw [← h]
      norm_num)
    (by norm_num [stW])).1

/-- C7: If the solver collaborators leave all fields unchanged (so the
temperature-change metric is 0 at every step) and the steady-state
tolerance is `1e-9`, then for any maximum step count of at least 1 the
run terminates after exactly 1 executed step in the CONVERGED state. -/
theorem C7_stub_converges (C : LoopConfig) (S : Collaborators P V)
    (Tb : P → ℚ) (st : SimState M P V)
    (hst : ∀ T z, S.stokesSolve T z = Except.ok z)
    (hen : ∀ z T dt, S.energySolve z T dt = Except.ok T)
    (hmc : ∀ f, S.maxchange f f = 0)
    (htol : C.steady_state_tolerance = 1 / 1000000000)
    (hts : 1 ≤ C.timesteps) :
    (runLoop C S Tb st).result = RunResult.CONVERGED
      ∧ (runLoop C S Tb st).trace.length = 1 := by
  obtain ⟨r, hr⟩ := Nat.exists_eq_add_of_le hts
  have htolpos : 0 < C.steady_state_tolerance := by
    rw [htol]
    norm_num
  have h := runFrom_conv1 C S Tb hst hen hmc htolpos r 0 st
  have hre : C.timesteps = r + 1 := by omega
  constructor
  · show (runFrom C S Tb C.timesteps 0 st).result = RunResult.CONVERGED
    rw [hre]
    exact h.1
  · show (runFrom C S Tb C.timesteps 0 st).trace.length = 1
    rw [hre]
    exact h.2

/-- C7 witness: the spec's scenario configuration (`max_steps = 5`,
`output_frequency = 2`, tolerance `1e-9`) with identity solver stubs. -/
theorem C7_stub_converges_witness :
    (runLoop cfgC7 idCollab TbW stW).result = RunResult.CONVERGED
      ∧ (runLoop cfgC7 idCollab TbW stW).trace.length = 1 :=
  C7_stub_converges cfgC7 idCollab TbW stW (fun _ _ => rfl)
    (fun _ _ _ => rfl)
    (fun f => by
      show |f 0 - f 0| = 0
      simp)
    rfl (by norm_num [cfgC7])

/-- C2 counterexample: a run whose Stokes solve diverges on the first
iteration ends in the terminal state DIVERGED with no `plog.close()`
effect in its trace: the uncaught exception skips script line 262, so
the log sink is not closed on this terminal transition. -/
theorem C2_log_close_counterexample :
    (runLoop cfgSmall divCollab TbW stW).result = RunResult.DIVERGED
      ∧ (runLoop cfgSmall divCollab TbW stW).events.countP isLogClose
          = 0 := by
  norm_num [runLoop, runFrom, oneStep, update_timestep, stepDt, vizEvents,
    nextState, cfgSmall, divCollab, TbW, stW, min_def, isLogClose,
    List.countP_cons]

/-- C2 (amended): the log sink is closed, exactly once, on the
CONVERGED and MAX_STEPS_REACHED terminal transitions; on a
SolverDivergence the exception propagates and the log sink is not
closed. -/
theorem C2_log_close_amended (C : LoopConfig) (S : Collaborators P V)
    (Tb : P → ℚ) (st : SimState M P V) :
    ((runLoop C S Tb st).result = RunResult.DIVERGED →
        (runLoop C S Tb st).events.countP isLogClose = 0)
      ∧ ((runLoop C S Tb st).result ≠ RunResult.DIVERGED →
        (runLoop C S Tb st).events.countP isLogClose = 1) := by
  have h := runFrom_close C S Tb C.timesteps 0 st
  have hh : (runLoop C S Tb st).events.countP isLogClose
      = (runFrom C S Tb C.timesteps 0 st).events.countP isLogClose := by
    show (Event.logHeader _ :: _).countP isLogClose = _
    rw [List.countP_cons_of_neg _ _ (by simp [isLogClose])]
  constructor
  · intro hres
    rw [hh]
    exact (h.1 hres).1
  · intro hres
    rw [hh]
    exact (h.2 hres).1

/-- C2 witness: a concrete run that exhausts its range closes the log
exactly once. -/
theorem C2_log_close_amended_witness :
    (runLoop cfgSmall okCollab TbW stW).events.countP isLogClose = 1 :=
  (C2_log_close_amended cfgSmall okCollab TbW stW).2 (by
    norm_num [runLoop, runFrom, oneStep, update_timestep, stepDt,
      vizEvents, nextState, cfgSmall, okCollab, TbW, stW, min_def]
    decide)

/-- C3 counterexample: a run whose Stokes solve diverges on the first
iteration ends in the terminal state DIVERGED with no checkpoint in its
trace: the uncaught exception skips script lines 264-267, so no
checkpoint is persisted on this terminal state. -/
theorem C3_checkpoint_counterexample :
    (runLoop cfgSmall divCollab TbW stW).result = RunResult.DIVERGED
      ∧ (runLoop cfgSmall divCollab TbW stW).events.countP isCheckpoint
          = 0 := by
  norm_num [runLoop, runFrom, oneStep, update_timestep, stepDt, vizEvents,
    nextState, cfgSmall, divCollab, TbW, stW, min_def, isCheckpoint,
    List.countP_cons]

/-- C3 (amended): on the CONVERGED and MAX_STEPS_REACHED terminal states
the very last effect of the run is a checkpoint containing the
mesh/domain descriptor, the final temperature field and the final mixed
(velocity-pressure) solution field; on DIVERGED no checkpoint is
written. -/
theorem C3_checkpoint_amended (C : LoopConfig) (S : Collaborators P V)
    (Tb : P → ℚ) (st : SimState M P V) :
    ((runLoop C S Tb st).result = RunResult.DIVERGED →
        (runLoop C S Tb st).events.countP isCheckpoint = 0)
      ∧ ((runLoop C S Tb st).result ≠ RunResult.DIVERGED →
        (runLoop C S Tb st).events.getLast?
          = some (Event.checkpoint (runLoop C S Tb st).finalState.mesh
              (runLoop C S Tb st).finalState.T
              (runLoop C S Tb st).finalState.z)) := by
  have h := runFrom_close C S Tb C.timesteps 0 st
  constructor
  · intro hres
    have hc := (h.1 hres).2
    show (Event.logHeader _ :: _).countP isCheckpoint = 0
    rw [List.countP_cons_of_neg _ _ (by simp [isCheckpoint])]
    exact hc
  · intro hres
    have hc := (h.2 hres).2
    have hnil : (runFrom C S Tb C.timesteps 0 st).events ≠ [] := by
      intro hcon
      rw [hcon] at hc
      simp at hc
    show (Event.logHeader _
        :: (runFrom C S Tb C.timesteps 0 st).events).getLast? = _
    cases hev : (runFrom C S Tb C.timesteps 0 st).events with
    | nil => exact absurd hev hnil
    | cons b t =>
        rw [hev] at hc
        rw [List.getLast?_cons_cons]
        exact hc

/-- C3 witness: the final effect of a concrete non-diverging run is the
checkpoint of the final mesh, temperature and mixed solution. -/
theorem C3_checkpoint_amended_witness :
    (runLoop cfgSmall okCollab TbW stW).events.getLast?
      = some (Event.checkpoint
          (runLoop cfgSmall okCollab TbW stW).finalState.mesh
          (runLoop cfgSmall okCollab TbW stW).finalState.T
          (runLoop cfgSmall okCollab TbW stW).finalState.z) :=
  (C3_checkpoint_amended cfgSmall okCollab TbW stW).2 (by
    norm_num [runLoop, runFrom, oneStep, update_timestep, stepDt,
      vizEvents, nextState, cfgSmall, okCollab, TbW, stW, min_def]
    decide)

/-- C8: With the steady-state tolerance set to 0 (the strict convergence
test `maxchange < 0` can never succeed since the metric is
nonnegative) and a maximum step count of 10, a run whose solves succeed
terminates in MAX_STEPS_REACHED after exactly 10 executed steps, having
appended exactly 10 per-step data lines to the log. -/
theorem C8_max_steps (C : LoopConfig) (S : Collaborators P V)
    (Tb : P → ℚ) (st : SimState M P V)
    (hst : ∀ T z, ∃ z2, S.stokesSolve T z = Except.ok z2)
    (hen : ∀ z T dt, ∃ T2, S.energySolve z T dt = Except.ok T2)
    (hnn : ∀ a b, 0 ≤ S.maxchange a b)
    (htol : C.steady_state_tolerance = 0)
    (hts : C.timesteps = 10) :
    (runLoop C S Tb st).result = RunResult.MAX_STEPS_REACHED
      ∧ (runLoop C S Tb st).trace.length = 10
      ∧ (runLoop C S Tb st).events.countP isLogLine = 10 := by
  have hnc : ∀ a b, ¬ S.maxchange a b < C.steady_state_tolerance := by
    intro a b
    rw [htol]
    exact not_lt.mpr (hnn a b)
  have h := runFrom_noconv C S Tb hst hen hnc C.timesteps 0 st
  have hcnt := runFrom_counts C S Tb C.timesteps 0 st
  refine ⟨h.1, ?_, ?_⟩
  · show (runFrom C S Tb C.timesteps 0 st).trace.length = 10
    rw [h.2, hts]
  · show (Event.logHeader _
        :: (runFrom C S Tb C.timesteps 0 st).events).countP isLogLine
      = 10
    rw [List.countP_cons_of_neg _ _ (by simp [isLogLine]), hcnt.1, h.2, hts]

/-- C8 witness: the scenario evaluated with always-succeeding,
always-changing solver stubs. -/
theorem C8_max_steps_witness :
    (runLoop cfgC8 okCollab TbW stW).result = RunResult.MAX_STEPS_REACHED
      ∧ (runLoop cfgC8 okCollab TbW stW).trace.length = 10
      ∧ (runLoop cfgC8 okCollab TbW stW).events.countP isLogLine = 10 :=
  C8_max_steps cfgC8 okCollab TbW stW (fun _ z => ⟨z + 1, rfl⟩)
    (fun _ T _ => ⟨fun x => T x + 1, rfl⟩)
    (fun a b => by
      show (0 : ℚ) ≤ |a 0 - b 0|
      exact abs_nonneg _)
    rfl rfl

/-- C9: The diagnostics logged at each step read the full-temperature
field as left by the previous iteration (initially by script line 163):
provided `FullT = T + Tbar` holds on entry, every data line's
`fullTUsed` equals the retained previous temperature plus the reference
temperature — the assignment `FullT.assign(T+Tbar)` of line 250 runs
only after the diagnostics and the log append. -/
theorem C9_diagnostics_stale (C : LoopConfig) (S : Collaborators P V)
    (Tb : P → ℚ) (st : SimState M P V)
    (h0 : ∀ x, st.fullT x = st.T x + Tb x) :
    ∀ e ∈ (runLoop C S Tb st).events, logLineStale Tb e := by
  intro e he
  rcases List.mem_cons.mp he with h | h
  · exact h ▸ trivial
  · exact runFrom_stale C S Tb C.timesteps 0 st h0 e h

/-- C9 witness: the staleness property evaluated on the first data line
of a concrete run. -/
theorem C9_diagnostics_stale_witness :
    logLineStale TbW ((runLoop cfgSmall okCollab TbW stW).events.get
      ⟨3, by
        norm_num [runLoop, runFrom, oneStep, update_timestep, stepDt,
          vizEvents, nextState, cfgSmall, okCollab, TbW, stW,
          min_def]⟩) :=
  C9_diagnostics_stale cfgSmall okCollab TbW stW
    (by
      intro x
      norm_num [stW, TbW])
    _ (List.get_mem _ 3 _)

/-- C10: Exactly one header line is written to the log sink before the
first iteration, and every completed iteration — including the one on
which the convergence test succeeds — appends exactly one data line, so
a run that executes `k` steps leaves `k + 1` log lines. -/
theorem C10_log_cadence (C : LoopConfig) (S : Collaborators P V)
    (Tb : P → ℚ) (st : SimState M P V) :
    (runLoop C S Tb st).events.countP isLogLine
        = (runLoop C S Tb st).trace.length
      ∧ (runLoop C S Tb st).events.countP isLogHeader = 1 := by
  have h := runFrom_counts C S Tb C.timesteps 0 st
  constructor
  · show (Event.logHeader _
        :: (runFrom C S Tb C.timesteps 0 st).events).countP isLogLine
      = _
    rw [List.countP_cons_of_neg _ _ (by simp [isLogLine])]
    exact h.1
  · show (Event.logHeader _
        :: (runFrom C S Tb C.timesteps 0 st).events).countP isLogHeader
      = 1
    rw [List.countP_cons_of_pos _ _ (by simp [isLogHeader]), h.2]

end ALA2d
